import Mathlib

/-!
Verification development for the kolybel_core repository.

The development shallowly embeds, in Lean 4:
* the web dashboard logic of `src/static/js/main.js` (status polling,
  display update, number formatting), translated directly from the source;
* the core Agent Specification / Runtime Orchestrator / Health Monitor
  design.  The Python modules named by the repository's documentation
  (`agent_specification.py`, `runtime_orchestrator.py`, `runtime_adapters.py`,
  `agents_v2.py`) are not part of the source tree, so those components are
  modelled from the specification text, as indicated on each definition.
-/

namespace Kolybel

/-! ### Dashboard state — from `src/static/js/main.js` -/

/-- The global `systemStatus` object of `main.js` (lines 4-9):
`{online, agents, memory, sessions}`. -/
structure SystemStatus where
  online : Bool
  agents : Nat
  memory : Nat
  sessions : Nat
deriving DecidableEq

/-- The JSON payload read by `checkSystemStatus` from `/api/status`:
`data.status`, `data.agents?.total_agents`, `data.memory?.total_documents`,
`data.sessions?.active_sessions`.  Optional chaining is modelled by
`Option Nat`. -/
structure StatusApiData where
  status : String
  agentsTotal : Option Nat
  memoryTotal : Option Nat
  sessionsActive : Option Nat
deriving DecidableEq

/-- JavaScript `x?.f || 0`: a missing value is replaced by `0`. -/
def orZero : Option Nat → Nat
  | some n => n
  | none => 0

/-- Embedding of `checkSystemStatus` (`main.js` lines 75-93).  The fetch of
`/api/status` is represented by its result: `some data` when the response
arrived and parsed, `none` when the promise chain rejected (network error or
JSON parse error).  The function returns the new `systemStatus` together with
a flag recording whether `updateSystemStatusDisplay` was invoked. -/
def checkSystemStatus (fetchResult : Option StatusApiData) (s : SystemStatus) :
    SystemStatus × Bool :=
  match fetchResult with
  | some data =>
      ({ online := data.status == "online"
         agents := orZero data.agentsTotal
         memory := orZero data.memoryTotal
         sessions := orZero data.sessionsActive }, true)
  | none =>
      ({ s with online := false }, true)

/-- From `startPeriodicUpdates` (`main.js` lines 67-73):
`setInterval(checkSystemStatus, 30000)` — the status refresh interval in
milliseconds. -/
def statusUpdateIntervalMs : Nat := 30000

/-- JavaScript `x.toFixed(1)` applied to the exact value of the number `x`
(ECMA-262 Number.prototype.toFixed: the integer n for which n/10 is closest
to `x`, ties resolved toward the larger n), printed with one digit after the
decimal point.  Inside `formatNumber` the argument is always ≥ 1. -/
def toFixed1 (x : ℚ) : String :=
  (if ⌊x * 10 + 1 / 2⌋ < 0 then "-" else "") ++
    Nat.repr ((⌊x * 10 + 1 / 2⌋ : ℤ).natAbs / 10) ++ "." ++
    Nat.repr ((⌊x * 10 + 1 / 2⌋ : ℤ).natAbs % 10)

/-- Floor of the base-2 logarithm (0 at 0), by structural fuel recursion so
the kernel can evaluate it. -/
def floorLog2Aux : Nat → Nat → Nat
  | 0, _ => 0
  | fuel + 1, n => if n < 2 then 0 else floorLog2Aux fuel (n / 2) + 1

/-- `floorLog2 n = ⌊log₂ n⌋` for `n ≥ 1`. -/
def floorLog2 (n : Nat) : Nat :=
  floorLog2Aux n n

/-- The 53-bit significand of the binary64 (IEEE-754 double) value nearest
to `a / b`, for `1 ≤ b ≤ a` (quotient in the normal range `≥ 1`): the
quotient is scaled into `[2^52, 2^53)` and rounded to the nearest integer,
ties to even — exactly how a correctly rounded double division rounds. -/
def roundMantissa (a b : Nat) : Nat :=
  let e := floorLog2 (a / b)
  let d1 := b * 2 ^ e
  let n1 := a * 2 ^ 52
  let t := n1 / d1
  let r := n1 % d1
  if 2 * r < d1 then t
  else if d1 < 2 * r then t + 1
  else if t % 2 = 0 then t else t + 1

/-- The exact rational value of the binary64 double nearest to `a / b`
(for `1 ≤ b ≤ a`): this is what a JavaScript division of the exact operands
produces. -/
def roundDoublePos (a b : Nat) : ℚ :=
  ((roundMantissa a b : ℚ) * 2 ^ floorLog2 (a / b)) / 2 ^ 52

/-- Embedding of `formatNumber` (`main.js` lines 325-332).  The dashboard
calls it on integer counters, so the input is an integer; `num / 1000000`
and `num / 1000` are IEEE-754 double divisions, modelled exactly by
`roundDoublePos` (faithful on `0 ≤ num ≤ 2^53`, where the integer itself is
exactly representable as a double), and `toFixed(1)` then rounds the exact
value of that double. -/
def formatNumber (num : ℤ) : String :=
  if 1000000 ≤ num then toFixed1 (roundDoublePos num.toNat 1000000) ++ "M"
  else if 1000 ≤ num then toFixed1 (roundDoublePos num.toNat 1000) ++ "K"
  else toString num

/-! ### Health states and the Health Monitor -/

/-- Health classification of an adapter's backend (spec §3, Adapter
Registration). -/
inductive HealthState
  | unknown
  | healthy
  | degraded
  | unavailable
deriving DecidableEq

/-- Modelled from the spec: §4.3 Health Monitor.  Per-adapter monitor state:
the last established health state together with the pending differing probe
result (hysteresis bookkeeping).  `runtime_orchestrator.py`, which the
documentation names as host of the monitor, is absent from the source tree. -/
structure MonitorState where
  current : HealthState
  pendingDiffering : Option HealthState
deriving DecidableEq

/-- Modelled from the spec: §4.3 state transitions.  `Unknown` moves to the
first probe's result immediately; afterwards a state flips only after two
consecutive probe results that agree with each other and differ from the
current state. -/
def recordProbe (s : MonitorState) (probe : HealthState) : MonitorState :=
  if s.current = HealthState.unknown then ⟨probe, none⟩
  else if probe = s.current then ⟨s.current, none⟩
  else
    match s.pendingDiffering with
    | some p => if p = probe then ⟨probe, none⟩ else ⟨s.current, some probe⟩
    | none => ⟨s.current, some probe⟩

/-- Modelled from the spec: §4.2 Local adapter.  The only dependency the
Local adapter owns is its local work queue. -/
structure LocalAdapterState where
  queueSaturated : Bool
deriving DecidableEq

/-- Modelled from the spec: §4.2 — the Local adapter "always reports
`Healthy` unless a dependency it owns (e.g. a local queue) is saturated, in
which case `Degraded`".  `runtime_adapters.py` is absent from the source
tree. -/
def localProbeHealth (s : LocalAdapterState) : HealthState :=
  if s.queueSaturated then HealthState.degraded else HealthState.healthy

/-! ### Health-probe scheduling (spec §4.3, config of part_003) -/

/-- Health Monitor configuration.  The probe interval is configurable;
the documented configuration (part_003, `'health_check_interval': 60`)
gives the default, in seconds. -/
structure HealthMonitorConfig where
  healthCheckInterval : Nat
deriving DecidableEq

/-- Modelled from the spec and from the documented default configuration of
part_003: `health_check_interval: 60` seconds. -/
def defaultHealthMonitorConfig : HealthMonitorConfig := ⟨60⟩

/-- Modelled from the spec: §4.3 — probes run on a fixed interval; the n-th
scheduled probe happens `n * interval` seconds after start. -/
def scheduledProbeTime (cfg : HealthMonitorConfig) (n : Nat) : Nat :=
  n * cfg.healthCheckInterval

/-- The failure kinds of spec §7 that a `submit` call can produce. -/
inductive SubmitFailureKind
  | backendUnavailable
  | timedOut
  | unsupportedCapability
  | executionFailure
deriving DecidableEq

/-- Modelled from the spec: §4.3 — an on-demand probe runs after a `submit`
failure attributable to backend unavailability (per §7, `Timeout` is treated
as a `BackendUnavailable`-class failure), but not after a business-logic
failure. -/
def triggersOnDemandProbe : SubmitFailureKind → Bool
  | SubmitFailureKind.backendUnavailable => true
  | SubmitFailureKind.timedOut => true
  | SubmitFailureKind.unsupportedCapability => false
  | SubmitFailureKind.executionFailure => false

/-! ### Failover execution (spec §4.4, part_003 "Выполнение с Failover") -/

/-- Outcome an adapter reports for one attempt (spec §4.2 `poll` terminal
statuses). -/
inductive CandidateResult
  | succeeded
  | failed (reason : String)
deriving DecidableEq

/-- One eligible candidate adapter together with the outcome its backend
would report for this request. -/
structure Candidate where
  adapter : String
  result : CandidateResult
deriving DecidableEq

/-- Spec §3 `ExecutionAttempt`: chosen adapter, ordinal position in the
failover sequence, and outcome. -/
structure ExecutionAttempt where
  adapter : String
  ordinal : Nat
  outcome : CandidateResult
deriving DecidableEq

/-- Terminal state of an `ExecutionRequest` (spec §4.4 step 4). -/
inductive TerminalState
  | succeededT
  | failedT
deriving DecidableEq

/-- Modelled from the spec: §4.4 `Failover` policy — try candidates in
order, record every attempt, stop at the first `Succeeded`, fail once all
candidates are exhausted.  `ord` is the ordinal of the next attempt.
`runtime_orchestrator.py` is absent from the source tree. -/
def runFailover : Nat → List Candidate → List ExecutionAttempt × TerminalState
  | _, [] => ([], TerminalState.failedT)
  | ord, c :: rest =>
      match c.result with
      | CandidateResult.succeeded =>
          ([⟨c.adapter, ord, c.result⟩], TerminalState.succeededT)
      | CandidateResult.failed _ =>
          ((⟨c.adapter, ord, c.result⟩ : ExecutionAttempt) ::
              (runFailover (ord + 1) rest).1,
            (runFailover (ord + 1) rest).2)

/-- Execute one request under the `Failover` policy: attempts are numbered
from 1. -/
def executeFailover (cs : List Candidate) : List ExecutionAttempt × TerminalState :=
  runFailover 1 cs

/-! ### Cron expressions (part_001 "Расписание", part_003 schedule trigger) -/

/-- One field of a five-field cron expression: `*` or a comma-separated
list of numbers. -/
inductive CronField
  | star
  | values (ns : List Nat)
deriving DecidableEq

/-- A parsed five-field cron expression `minute hour day-of-month month
day-of-week`. -/
structure CronExpr where
  minute : CronField
  hour : CronField
  dayOfMonth : CronField
  month : CronField
  dayOfWeek : CronField
deriving DecidableEq

/-- Split a character list on a separator character. -/
def splitOnChar (sep : Char) : List Char → List (List Char)
  | [] => [[]]
  | c :: cs =>
      let rest := splitOnChar sep cs
      if c = sep then [] :: rest
      else
        match rest with
        | [] => [[c]]
        | w :: ws => (c :: w) :: ws

/-- Value of a decimal digit character. -/
def digitVal (c : Char) : Option Nat :=
  if c.isDigit then some (c.toNat - 48) else none

/-- Parse a non-empty all-digit character list as a natural number. -/
def parseNatDigits (cs : List Char) : Option Nat :=
  if cs = [] then none
  else
    cs.foldl
      (fun acc c =>
        match acc, digitVal c with
        | some a, some d => some (a * 10 + d)
        | _, _ => none)
      (some 0)

/-- Modelled from the spec: parse one cron field — `*` or a comma-separated
list of numbers. -/
def parseCronField (cs : List Char) : Option CronField :=
  if cs = ['*'] then some CronField.star
  else
    let vals := (splitOnChar ',' cs).map parseNatDigits
    if vals.all Option.isSome then some (CronField.values (vals.filterMap id))
    else none

/-- Modelled from the spec: parse a five-field cron expression such as the
documented `"0 9,15,20 * * *"` (part_001 line 182, part_003 schedule
trigger). -/
def parseCron (s : String) : Option CronExpr :=
  match splitOnChar ' ' s.toList with
  | [f1, f2, f3, f4, f5] =>
      match parseCronField f1, parseCronField f2, parseCronField f3,
          parseCronField f4, parseCronField f5 with
      | some mi, some h, some dom, some mon, some dow =>
          some ⟨mi, h, dom, mon, dow⟩
      | _, _, _, _, _ => none
  | _ => none

/-- Does a cron field match a given value? -/
def fieldMatches : CronField → Nat → Bool
  | CronField.star, _ => true
  | CronField.values ns, n => ns.contains n

/-- Does the cron expression fire at the given minute of the given day? -/
def cronMatches (c : CronExpr) (minute hour dom month dow : Nat) : Bool :=
  fieldMatches c.minute minute && fieldMatches c.hour hour &&
    fieldMatches c.dayOfMonth dom && fieldMatches c.month month &&
    fieldMatches c.dayOfWeek dow

/-- All `(hour, minute)` pairs of one 24-hour day (a day with day-of-month
`dom`, month `month`, day-of-week `dow`) at which the expression fires. -/
def dayFireTimes (c : CronExpr) (dom month dow : Nat) : List (Nat × Nat) :=
  (List.range 24).flatMap fun h =>
    (List.range 60).filterMap fun mi =>
      if cronMatches c mi h dom month dow then some (h, mi) else none

/-- Spec §3: firing a trigger produces an `ExecutionRequest` referencing the
specification id; for a schedule trigger we also record the local fire
time. -/
structure ExecutionRequest where
  specificationId : String
  fireHour : Nat
  fireMinute : Nat
deriving DecidableEq

/-- The execution requests a schedule trigger produces during one 24-hour
day. -/
def scheduleRequestsForDay (specId : String) (c : CronExpr) (dom month dow : Nat) :
    List ExecutionRequest :=
  (dayFireTimes c dom month dow).map fun hm => ⟨specId, hm.1, hm.2⟩

/-- The parsed form of the documented expression `"0 9,15,20 * * *"`. -/
def cron935 : CronExpr :=
  ⟨CronField.values [0], CronField.values [9, 15, 20],
    CronField.star, CronField.star, CronField.star⟩

/-! ### Agent Specification and validation (spec §3, §4.1; part_003 sample) -/

/-- Spec §3 `Trigger`: tagged variant over the fixed trigger set. -/
inductive Trigger
  | schedule (cronExpression : String)
  | webhook (path : String)
  | feedPoll (sourceUrl : String) (pollInterval : Nat)
  | fileWatch (path : String)
  | queueMessage (queueName : String)
  | manual
deriving DecidableEq

/-- Spec §3 `Step` kinds: tagged variant over the fixed capability set.
`conditional` and `loop` branches carry the step ids they reference. -/
inductive StepKind
  | httpRequest
  | parseFeed
  | generateContent
  | sendMessage
  | transformData
  | filterData
  | conditional (predicate thenBranch elseBranch : String)
  | loop (condition body : String)
  | delay (duration : Nat)
  | customCode (reference : String)
deriving DecidableEq

/-- Spec §3 `Step`: an id unique within the specification plus its kind. -/
structure Step where
  id : String
  kind : StepKind
deriving DecidableEq

/-- Spec §3 `AgentSpecification`, matching the sample document of part_003
(lines 19-47): identity, triggers, ordered steps, runtime preferences. -/
structure AgentSpecification where
  id : String
  name : String
  owner : String
  triggers : List Trigger
  steps : List Step
  runtimePreferences : List String
deriving DecidableEq

/-- Spec §4.1 `ValidationError{field, reason}`. -/
structure ValidationError where
  field : String
  reason : String
deriving DecidableEq

/-- The step ids of a specification, in order. -/
def stepIds (s : AgentSpecification) : List String :=
  s.steps.map Step.id

/-- Is a parsed cron field satisfiable within the given bound (so the
expression has a fire time at all)? -/
def fieldSatisfiableBelow (bound : Nat) : CronField → Bool
  | CronField.star => true
  | CronField.values ns => ns.any fun n => n < bound

/-- Modelled from the spec: §4.1 — a schedule trigger's cron expression is
well-formed when it parses and has at least one fire time (each field can
match some calendar value). -/
def cronWellFormed (e : String) : Bool :=
  match parseCron e with
  | some c =>
      fieldSatisfiableBelow 60 c.minute && fieldSatisfiableBelow 24 c.hour &&
        (match c.dayOfMonth with
          | CronField.star => true
          | CronField.values ns => ns.any fun n => 1 ≤ n && n ≤ 31) &&
        (match c.month with
          | CronField.star => true
          | CronField.values ns => ns.any fun n => 1 ≤ n && n ≤ 12) &&
        fieldSatisfiableBelow 7 c.dayOfWeek
  | none => false

/-- Modelled from the spec: §4.1 — trigger configuration well-formedness.
The spec constrains the schedule trigger's cron expression; the remaining
trigger variants carry opaque configuration. -/
def triggerWellFormed : Trigger → Bool
  | Trigger.schedule e => cronWellFormed e
  | _ => true

/-- Do a step's `Conditional`/`Loop` branches reference only step ids of the
same specification (spec §3 invariant, §4.1 check)? -/
def stepBranchesResolvable (ids : List String) : StepKind → Bool
  | StepKind.conditional _ thenBranch elseBranch =>
      ids.contains thenBranch && ids.contains elseBranch
  | StepKind.loop _ body => ids.contains body
  | _ => true

/-- The stated invariants of spec §3/§4.1 for a specification: non-empty
steps, unique step ids, well-formed trigger configs, branch references
inside the specification's own step set. -/
def specInvariants (s : AgentSpecification) : Prop :=
  s.steps ≠ [] ∧ (stepIds s).Nodup ∧
    (∀ t ∈ s.triggers, triggerWellFormed t = true) ∧
    (∀ st ∈ s.steps, stepBranchesResolvable (stepIds s) st.kind = true)

/-- Modelled from the spec: §4.1 `validate(spec) -> Ok | ValidationError`.
Pure function of the specification alone — it touches no backend.
`agent_specification.py` is absent from the source tree. -/
def validate (s : AgentSpecification) : Except ValidationError Unit :=
  if s.steps = [] then Except.error ⟨"steps", "steps must be non-empty"⟩
  else if ¬ (stepIds s).Nodup then Except.error ⟨"steps", "duplicate step id"⟩
  else if ¬ (∀ t ∈ s.triggers, triggerWellFormed t = true) then
    Except.error ⟨"triggers", "malformed trigger config"⟩
  else if ¬ (∀ st ∈ s.steps, stepBranchesResolvable (stepIds s) st.kind = true) then
    Except.error ⟨"steps", "branch reference outside specification"⟩
  else Except.ok ()

/-! ### Success-rate statistics (spec §4.5; part_001 list_agents) -/

/-- Terminal state of a past request, as recorded in execution history. -/
inductive RequestTerminal
  | succeededR
  | failedR
deriving DecidableEq

/-- Number of successful terminal requests in a window of execution
history. -/
def successfulCount (w : List RequestTerminal) : Nat :=
  w.countP fun r => r == RequestTerminal.succeededR

/-- Modelled from the spec: §4.5 — `success_rate` = successful terminal
requests / total terminal requests over the trailing window, and a window
with zero terminal requests reports an undefined (`none`) rate rather than
zero.  `agents_v2.py` is absent from the source tree. -/
def successRate (w : List RequestTerminal) : Option ℚ :=
  if w = [] then none
  else some ((successfulCount w : ℚ) / (w.length : ℚ))

/-! ### Specification documents and round-trip (spec §3 lifecycle, §6) -/

/-- One field of a stored specification document; unknown fields are fields
whose key the current schema does not recognise. -/
structure DocField where
  key : String
  value : String
deriving DecidableEq

/-- Modelled from the spec: §6 — a loaded specification keeps the whole
document; known fields are read through accessors and unknown fields are
retained rather than dropped. -/
structure LoadedSpecification where
  fields : List DocField
deriving DecidableEq

/-- Load (deserialize) a stored specification document. -/
def loadSpecification (d : List DocField) : LoadedSpecification := ⟨d⟩

/-- Serialize a loaded specification back to a document. -/
def serializeSpecification (s : LoadedSpecification) : List DocField :=
  s.fields

/-- Read a (known) field of a loaded specification by key. -/
def getDocField (s : LoadedSpecification) (k : String) : Option String :=
  (s.fields.find? fun f => f.key == k).map DocField.value

/-- Modelled from the spec: §3 lifecycle — `update` versions a specification
by replacing the whole document, never by partial mutation. -/
def updateSpecification (store : List (String × LoadedSpecification)) (id : String)
    (d : List DocField) : List (String × LoadedSpecification) :=
  (id, loadSpecification d) :: store.filter fun p => p.1 ≠ id

/-- Fetch a stored specification by id. -/
def getSpecification (store : List (String × LoadedSpecification)) (id : String) :
    Option LoadedSpecification :=
  (store.find? fun p => p.1 == id).map Prod.snd

/-! ### Concrete examples (used by witnesses) -/

/-- A specification satisfying every stated invariant, shaped after the
sample document of part_003. -/
def specOkExample : AgentSpecification :=
  ⟨"rss-monitor-001", "DTF RSS Monitor", "kolybel_user",
    [Trigger.manual, Trigger.schedule "0 9,15,20 * * *"],
    [⟨"fetch_rss", StepKind.parseFeed⟩, ⟨"generate_content", StepKind.generateContent⟩,
      ⟨"send_telegram", StepKind.sendMessage⟩],
    ["n8n", "local", "docker"]⟩

/-- A specification with a duplicated step id. -/
def specDupExample : AgentSpecification :=
  ⟨"dup-001", "Duplicate", "user", [],
    [⟨"s1", StepKind.httpRequest⟩, ⟨"s1", StepKind.sendMessage⟩], []⟩

/-- A two-candidate failover run: the first candidate fails, the second
succeeds (the scenario of spec §8). -/
def failoverExample : List Candidate :=
  [⟨"local", CandidateResult.failed "BackendUnavailable"⟩,
    ⟨"docker", CandidateResult.succeeded⟩]

/-- A two-candidate failover run where every candidate fails. -/
def allFailExample : List Candidate :=
  [⟨"n8n", CandidateResult.failed "connection refused"⟩,
    ⟨"docker", CandidateResult.failed "daemon not running"⟩]

/-! ## Theorems -/

/-- Failover over candidates that all fail records one attempt per
candidate, with consecutive ordinals starting at `ord`, and ends `Failed`. -/
theorem runFailover_allFail (ord : Nat) (cs : List Candidate)
    (h : ∀ x ∈ cs, x.result ≠ CandidateResult.succeeded) :
    (runFailover ord cs).1.length = cs.length ∧
    (runFailover ord cs).1.map ExecutionAttempt.ordinal = List.range' ord cs.length ∧
    (runFailover ord cs).2 = TerminalState.failedT := by
  induction cs generalizing ord with
  | nil => simp [runFailover]
  | cons c rest ih =>
    have hc := h c (List.mem_cons_self c rest)
    obtain ⟨hl, hm, ht⟩ := ih (ord + 1) fun x hx => h x (List.mem_cons_of_mem c hx)
    cases hres : c.result with
    | succeeded => exact absurd hres hc
    | failed r =>
      refine ⟨?_, ?_, ?_⟩ <;>
        simp [runFailover, hres, hl, hm, ht, List.range'_succ]

/-- Failover that reaches a succeeding candidate after a failing run records
one attempt per tried candidate, with consecutive ordinals from `ord`, and
ends `Succeeded`. -/
theorem runFailover_prefix_success (ord : Nat) (pre post : List Candidate)
    (c : Candidate)
    (hpre : ∀ x ∈ pre, x.result ≠ CandidateResult.succeeded)
    (hc : c.result = CandidateResult.succeeded) :
    (runFailover ord (pre ++ c :: post)).1.length = pre.length + 1 ∧
    (runFailover ord (pre ++ c :: post)).1.map ExecutionAttempt.ordinal =
      List.range' ord (pre.length + 1) ∧
    (runFailover ord (pre ++ c :: post)).2 = TerminalState.succeededT := by
  induction pre generalizing ord with
  | nil => simp [runFailover, hc, List.range'_one]
  | cons p rest ih =>
    have hp := hpre p (List.mem_cons_self p rest)
    obtain ⟨hl, hm, ht⟩ :=
      ih (ord + 1) fun x hx => hpre x (List.mem_cons_of_mem p hx)
    cases hres : p.result with
    | succeeded => exact absurd hres hp
    | failed r =>
      refine ⟨?_, ?_, ?_⟩ <;>
        simp [runFailover, hres, hl, hm, ht, List.range'_succ]

/-- Claim C1: under the `Failover` policy, if candidate k (1-indexed) is the
first to return `Succeeded` and every candidate before it fails, exactly k
`ExecutionAttempt` records exist, in attempt order 1..k, and the request's
terminal state is `Succeeded`; if all N candidates fail, exactly N attempt
records exist (ordinals 1..N) and the terminal state is `Failed`. -/
theorem failover_attempts_spec (pre post cs : List Candidate) (c : Candidate)
    (hpre : ∀ x ∈ pre, x.result ≠ CandidateResult.succeeded)
    (hc : c.result = CandidateResult.succeeded)
    (hall : ∀ x ∈ cs, x.result ≠ CandidateResult.succeeded) :
    ((executeFailover (pre ++ c :: post)).1.length = pre.length + 1 ∧
      (executeFailover (pre ++ c :: post)).1.map ExecutionAttempt.ordinal =
        List.range' 1 (pre.length + 1) ∧
      (executeFailover (pre ++ c :: post)).2 = TerminalState.succeededT) ∧
    ((executeFailover cs).1.length = cs.length ∧
      (executeFailover cs).1.map ExecutionAttempt.ordinal = List.range' 1 cs.length ∧
      (executeFailover cs).2 = TerminalState.failedT) :=
  ⟨runFailover_prefix_success 1 pre post c hpre hc, runFailover_allFail 1 cs hall⟩

/-- Witness for C1: the §8 scenario — Local fails with `BackendUnavailable`,
Docker succeeds: 2 attempts with ordinals [1, 2], terminal `Succeeded`; and
a run where both candidates fail ends `Failed` with 2 attempts. -/
theorem failover_attempts_spec_witness :
    (executeFailover failoverExample).1.length = 2 ∧
    (executeFailover failoverExample).1.map ExecutionAttempt.ordinal = [1, 2] ∧
    (executeFailover failoverExample).2 = TerminalState.succeededT ∧
    (executeFailover allFailExample).1.length = 2 ∧
    (executeFailover allFailExample).2 = TerminalState.failedT := by
  have h := failover_attempts_spec
    [⟨"local", CandidateResult.failed "BackendUnavailable"⟩] []
    allFailExample ⟨"docker", CandidateResult.succeeded⟩
    (by decide) rfl (by decide)
  obtain ⟨⟨h1, h2, h3⟩, h4, _h5, h6⟩ := h
  exact ⟨h1, h2, h3, h4, h6⟩

/-- Claim C2: the health state maintained by the Health Monitor never
changes because of a single probe result that differs from the current state
(except the first probe leaving `Unknown`): a transition out of an
established state occurs only when the pending differing probe is repeated,
i.e. after two consecutive differing probe results. -/
theorem health_hysteresis_single_probe (s : MonitorState) (probe : HealthState)
    (hcur : s.current ≠ HealthState.unknown) :
    (s.pendingDiffering = none → (recordProbe s probe).current = s.current) ∧
    ((recordProbe s probe).current ≠ s.current →
      s.pendingDiffering = some probe ∧ probe ≠ s.current) := by
  constructor
  · intro hnone
    by_cases hp : probe = s.current
    · simp [recordProbe, hcur, hp]
    · simp [recordProbe, hcur, hp, hnone]
  · intro hch
    by_cases hp : probe = s.current
    · exact absurd (by simp [recordProbe, hcur, hp]) hch
    · cases hpd : s.pendingDiffering with
      | none => exact absurd (by simp [recordProbe, hcur, hp, hpd]) hch
      | some p =>
        by_cases hpp : p = probe
        · exact ⟨congrArg some hpp, hp⟩
        · exact absurd (by simp [recordProbe, hcur, hp, hpd, hpp]) hch

/-- Witness for C2: an adapter established `Healthy` with no pending
differing probe stays `Healthy` after a single `Degraded` probe. -/
theorem health_hysteresis_single_probe_witness :
    ((⟨HealthState.healthy, none⟩ : MonitorState).current ≠ HealthState.unknown) ∧
    (recordProbe ⟨HealthState.healthy, none⟩ HealthState.degraded).current =
      HealthState.healthy := by
  refine ⟨by decide, ?_⟩
  exact (health_hysteresis_single_probe ⟨HealthState.healthy, none⟩
    HealthState.degraded (by decide)).1 rfl

/-- Claim C3: a specification satisfying all the stated invariants (with at
least one step) validates to `Ok`; a specification with two steps sharing an
id deterministically validates to the `ValidationError` on field `steps`.
`validate` is a pure Lean function of the specification alone, so equal
inputs give equal results and no backend is involved. -/
theorem validate_spec_behavior (s t : AgentSpecification)
    (hinv : specInvariants s) (hdup : ¬ (stepIds t).Nodup) :
    validate s = Except.ok () ∧
    validate t = Except.error ⟨"steps", "duplicate step id"⟩ := by
  obtain ⟨h1, h2, h3, h4⟩ := hinv
  constructor
  · unfold validate
    rw [if_neg h1, if_neg (not_not_intro h2), if_neg (not_not_intro h3),
      if_neg (not_not_intro h4)]
  · have hne : ¬ (t.steps = []) := by
      intro he
      apply hdup
      simp [stepIds, he]
    unfold validate
    rw [if_neg hne, if_pos hdup]

/-- Witness for C3: the part_003-shaped sample specification validates `Ok`;
a specification with a duplicated step id gets the duplicate-id error. -/
theorem validate_spec_behavior_witness :
    validate specOkExample = Except.ok () ∧
    validate specDupExample = Except.error ⟨"steps", "duplicate step id"⟩ :=
  validate_spec_behavior specOkExample specDupExample
    ⟨by decide, by decide, by decide, by decide⟩ (by decide)

/-- When the date fields of a cron expression are all `*`, its fire times
within a day do not depend on which day it is. -/
theorem dayFireTimes_star_date (c : CronExpr) (h1 : c.dayOfMonth = CronField.star)
    (h2 : c.month = CronField.star) (h3 : c.dayOfWeek = CronField.star)
    (dom month dow : Nat) :
    dayFireTimes c dom month dow = dayFireTimes c 0 0 0 := by
  simp [dayFireTimes, cronMatches, h1, h2, h3, fieldMatches]

/-- Claim C4: the documented schedule expression `"0 9,15,20 * * *"` parses,
and on every 24-hour day the trigger fires exactly 3 `ExecutionRequest`s,
at 09:00, 15:00 and 20:00 local time. -/
theorem schedule_cron_three_daily_fires (specId : String) (dom month dow : Nat) :
    parseCron "0 9,15,20 * * *" = some cron935 ∧
    scheduleRequestsForDay specId cron935 dom month dow =
      [⟨specId, 9, 0⟩, ⟨specId, 15, 0⟩, ⟨specId, 20, 0⟩] ∧
    (scheduleRequestsForDay specId cron935 dom month dow).length = 3 := by
  have hday : dayFireTimes cron935 dom month dow = [(9, 0), (15, 0), (20, 0)] := by
    rw [dayFireTimes_star_date cron935 rfl rfl rfl]
    decide
  refine ⟨by decide, ?_, ?_⟩ <;> simp [scheduleRequestsForDay, hday]

/-- Claim C5: the Local adapter's `probe_health` returns `Degraded` exactly
when the queue it owns is saturated, returns `Healthy` otherwise, and never
reports `Unavailable`. -/
theorem local_probe_health_never_unavailable (s : LocalAdapterState) :
    localProbeHealth s ≠ HealthState.unavailable ∧
    (localProbeHealth s = HealthState.degraded ↔ s.queueSaturated = true) ∧
    (localProbeHealth s = HealthState.healthy ↔ s.queueSaturated = false) := by
  cases s with
  | mk q => cases q <;> simp [localProbeHealth]

/-- Claim C6: `success_rate` equals successful terminal requests divided by
total terminal requests over the trailing window, and a window with zero
terminal requests reports the distinguished no-data value `none`, not the
number zero. -/
theorem success_rate_window (x : RequestTerminal) (rest : List RequestTerminal) :
    successRate [] = none ∧
    successRate [] ≠ some 0 ∧
    successRate (x :: rest) =
      some ((successfulCount (x :: rest) : ℚ) / (((x :: rest).length : Nat) : ℚ)) := by
  refine ⟨rfl, by simp [successRate], by simp [successRate]⟩

/-- Claim C7: serializing and re-loading a specification document — in
particular passing it through `update`, which replaces the whole stored
document — yields a document equal to the original: every field, known or
unknown to the schema, is preserved. -/
theorem spec_roundtrip_preserves_fields (store : List (String × LoadedSpecification))
    (id : String) (d : List DocField) :
    serializeSpecification (loadSpecification d) = d ∧
    (getSpecification (updateSpecification store id d) id).map serializeSpecification =
      some d := by
  constructor
  · rfl
  · simp [getSpecification, updateSpecification, loadSpecification,
      serializeSpecification, List.find?]

/-- Claim C8: health probing runs on a fixed configurable interval
(consecutive scheduled probes are exactly one interval apart) whose default
is 60 seconds — on the order of tens of seconds, like the dashboard's 30000
millisecond status poll — and an on-demand probe is triggered after a
`submit` failure attributable to backend unavailability but not after a
business-logic failure. -/
theorem health_probe_schedule (cfg : HealthMonitorConfig) (n : Nat) :
    scheduledProbeTime cfg (n + 1) = scheduledProbeTime cfg n + cfg.healthCheckInterval ∧
    defaultHealthMonitorConfig.healthCheckInterval = 60 ∧
    10 ≤ defaultHealthMonitorConfig.healthCheckInterval ∧
    defaultHealthMonitorConfig.healthCheckInterval ≤ 99 ∧
    statusUpdateIntervalMs = 30000 ∧
    triggersOnDemandProbe SubmitFailureKind.backendUnavailable = true ∧
    triggersOnDemandProbe SubmitFailureKind.executionFailure = false := by
  refine ⟨?_, rfl, by decide, by decide, rfl, rfl, rfl⟩
  simp [scheduledProbeTime, Nat.succ_mul]

/-- Claim C9: when the status fetch in `checkSystemStatus` fails (network
rejection or JSON parse error), only the `online` field of `systemStatus`
is modified (set to `false`); `agents`, `memory` and `sessions` keep their
prior values, and `updateSystemStatusDisplay` is still invoked. -/
theorem checkSystemStatus_error_frame (s : SystemStatus) :
    (checkSystemStatus none s).1.online = false ∧
    (checkSystemStatus none s).1.agents = s.agents ∧
    (checkSystemStatus none s).1.memory = s.memory ∧
    (checkSystemStatus none s).1.sessions = s.sessions ∧
    (checkSystemStatus none s).2 = true := by
  simp [checkSystemStatus]

/-- Counterexample for C10 as stated: at `num = 1150` the program computes
`1150 / 1000` as a binary64 double, whose value is `5179139571476070 / 2^52`
— strictly below 1.15 — so `toFixed(1)` prints `"1.1"` and `main.js` returns
`"1.1K"`, while the exact rational `1150 / 1000 = 1.15` rounded to one
decimal (with the tie rule toFixed itself uses, ties toward the larger)
is `"1.2"`.  So "`(num/1000)` rounded to one decimal" read on the exact
quotient is false of the code. -/
theorem formatNumber_exact_rounding_counterexample :
    formatNumber 1150 = "1.1K" ∧
    toFixed1 ((1150 : ℚ) / 1000) ++ "K" = "1.2K" ∧
    formatNumber 1150 ≠ toFixed1 ((1150 : ℚ) / 1000) ++ "K" := by
  have hr : roundDoublePos (Int.toNat 1150) 1000 =
      (5179139571476070 : ℚ) / 4503599627370496 := by
    have hm : roundMantissa (Int.toNat 1150) 1000 = 5179139571476070 := by decide
    have he : floorLog2 (Int.toNat 1150 / 1000) = 0 := by decide
    unfold roundDoublePos
    rw [hm, he]
    norm_num
  have hjs : formatNumber 1150 = "1.1K" := by
    have hb1 : ¬ ((1000000 : ℤ) ≤ 1150) := by decide
    have hb2 : (1000 : ℤ) ≤ 1150 := by decide
    unfold formatNumber
    rw [if_neg hb1, if_pos hb2, hr]
    have hf : ⌊((5179139571476070 : ℚ) / 4503599627370496) * 10 + 1 / 2⌋ = (11 : ℤ) :=
      Int.floor_eq_iff.mpr ⟨by norm_num, by norm_num⟩
    simp only [toFixed1, hf]
    decide
  have hex : toFixed1 ((1150 : ℚ) / 1000) ++ "K" = "1.2K" := by
    have hf : ⌊((1150 : ℚ) / 1000) * 10 + 1 / 2⌋ = (12 : ℤ) :=
      Int.floor_eq_iff.mpr ⟨by norm_num, by norm_num⟩
    simp only [toFixed1, hf]
    decide
  refine ⟨hjs, hex, ?_⟩
  rw [hjs, hex]
  decide

/-- Claim C10 (amended): `formatNumber(num)` returns the binary64
double-precision value of `num/1000000` rounded to one decimal (as
`toFixed(1)` rounds: nearest, ties toward the larger) followed by `"M"` when
`num ≥ 1000000`, the double value of `num/1000` so rounded followed by `"K"`
when `1000 ≤ num < 1000000`, and the plain decimal string of `num`
otherwise — the one-decimal rounding applies to the double approximation of
the quotient, not to the exact quotient. -/
theorem formatNumber_cases_ieee (num : ℤ) :
    (1000000 ≤ num →
      formatNumber num = toFixed1 (roundDoublePos num.toNat 1000000) ++ "M") ∧
    (1000 ≤ num → num < 1000000 →
      formatNumber num = toFixed1 (roundDoublePos num.toNat 1000) ++ "K") ∧
    (num < 1000 → formatNumber num = toString num) := by
  refine ⟨fun h => ?_, fun h1 h2 => ?_, fun h => ?_⟩
  · simp [formatNumber, h]
  · have hn : ¬ (1000000 ≤ num) := by omega
    simp [formatNumber, hn, h1]
  · have hn1 : ¬ (1000000 ≤ num) := by omega
    have hn2 : ¬ (1000 ≤ num) := by omega
    simp [formatNumber, hn1, hn2]

/-- Witness for C10: `formatNumber 2500 = "2.5K"` through the K branch —
the double value of `2500 / 1000` is exactly `5 / 2`, and `toFixed(1)`
prints `"2.5"`. -/
theorem formatNumber_cases_ieee_witness :
    (1000 ≤ (2500 : ℤ)) ∧ ((2500 : ℤ) < 1000000) ∧ formatNumber 2500 = "2.5K" := by
  refine ⟨by decide, by decide, ?_⟩
  have h := (formatNumber_cases_ieee 2500).2.1 (by decide) (by decide)
  rw [h]
  have hr : roundDoublePos (Int.toNat 2500) 1000 = (5 : ℚ) / 2 := by
    have hm : roundMantissa (Int.toNat 2500) 1000 = 5629499534213120 := by decide
    have he : floorLog2 (Int.toNat 2500 / 1000) = 1 := by decide
    unfold roundDoublePos
    rw [hm, he]
    norm_num
  rw [hr]
  have hf : ⌊((5 : ℚ) / 2) * 10 + 1 / 2⌋ = (25 : ℤ) :=
    Int.floor_eq_iff.mpr ⟨by norm_num, by norm_num⟩
  simp only [toFixed1, hf]
  decide

end Kolybel
